import Mathlib

/-!
Shallow embedding of the LPD detector data-path plugin
(`src/data/frameProcessor/src/LpdProcessPlugin.cpp`,
`src/data/common/include/LpdDefinitions.h`,
`src/data/frameReceiver/include/LpdFrameDecoder.h`).

Machine integers are modelled as `Nat`; arrays indexed by `Nat` are
modelled as total functions `Nat → Nat`.  The parts of the repository
whose implementation files are not present (the frame-receiver decoder
sources) are modelled from the specification and marked as such in
their doc comments.
-/

namespace LpdModel

/-! ## Constants from `LpdDefinitions.h` -/

def primary_packet_size : Nat := 8184

def num_tail_packets : Nat := 1

def max_num_fems : Nat := 6

def start_of_frame_mask : Nat := 1 <<< 31

def end_of_frame_mask : Nat := 1 <<< 30

def packet_number_mask : Nat := 0x3FFFFFFF

/-- Bit depth levels from `AsicCounterBitDepth` in `LpdDefinitions.h`
(the `bitDepthUnknown = -1` sentinel is not a table index and is omitted). -/
inductive AsicCounterBitDepth where
  | bitDepth1
  | bitDepth6
  | bitDepth12
  | bitDepth24
deriving DecidableEq, Repr

/-- The `num_primary_packets` table from `LpdDefinitions.h`: 320 for every
bit depth. -/
def num_primary_packets : AsicCounterBitDepth → Nat := fun _ => 320

/-- `Lpd::num_fem_frame_packets` from `LpdDefinitions.h`. -/
def num_fem_frame_packets (bit_depth : AsicCounterBitDepth) : Nat :=
  num_primary_packets bit_depth + num_tail_packets

/-- Modelled from the spec: `Lpd::num_packets`, used by
`LpdProcessPlugin::process_lost_packets`, is declared in a header that is
not under `src/`.  The spec defines the per-FEM expected packet count as
`primary_packets_for_bit_depth + tail_packets`, which per
`LpdDefinitions.h` is `320 + 1`. -/
def num_packets : Nat := 321

/-- The packet payload capacity in 16-bit samples, written
`Lpd::primary_packet_size / 2` throughout `LpdProcessPlugin.cpp`. -/
def packet_samples : Nat := primary_packet_size / 2

/-! ## `PacketTrailer` and the trailer field accessors

The `PacketTrailer` struct is in `LpdDefinitions.h`.  The accessor
bodies live in the frame-receiver decoder implementation, which is not
under `src/`; they are modelled from the spec
("`packet_number` = `packet_number_flags & packet_number_mask`",
"`start_of_frame` = `packet_number_flags & start_of_frame_mask != 0`",
"`end_of_frame` = `packet_number_flags & end_of_frame_mask != 0`",
"`frame_number` raw 32-bit value") using the masks from
`LpdDefinitions.h`. -/

structure PacketTrailer where
  frame_number : Nat
  packet_number_flags : Nat
deriving DecidableEq, Repr

/-- Modelled from the spec: `LpdFrameDecoder::get_frame_number` (declared in
`LpdFrameDecoder.h`, implementation not under `src/`). -/
def get_frame_number (trailer : PacketTrailer) : Nat :=
  trailer.frame_number

/-- Modelled from the spec: `LpdFrameDecoder::get_packet_number`. -/
def get_packet_number (trailer : PacketTrailer) : Nat :=
  trailer.packet_number_flags &&& packet_number_mask

/-- Modelled from the spec: `LpdFrameDecoder::get_start_of_frame_marker`. -/
def get_start_of_frame_marker (trailer : PacketTrailer) : Bool :=
  (trailer.packet_number_flags &&& start_of_frame_mask) != 0

/-- Modelled from the spec: `LpdFrameDecoder::get_end_of_frame_marker`. -/
def get_end_of_frame_marker (trailer : PacketTrailer) : Bool :=
  (trailer.packet_number_flags &&& end_of_frame_mask) != 0

/-- Modelled from the spec: the trailer encoder for the round-trip
property.  The wire layout packs a 30-bit packet sequence number in the
low bits of `packet_number_flags` with the start/end-of-frame flags in
the top two bits, and the frame number as a raw 32-bit word. -/
def encode_trailer (frame packet : Nat) (sof eof : Bool) : PacketTrailer :=
  { frame_number := frame % 2 ^ 32
    packet_number_flags :=
      packet % 2 ^ 30 + (if sof then start_of_frame_mask else 0) +
        (if eof then end_of_frame_mask else 0) }

/-! ## Receive state and frame header (`LpdDefinitions.h`) -/

/-- Frame lifecycle states.  Modelled from the spec: the numeric values of
`FrameHeader::frame_state` come from the frame-receiver framework, which
is not under `src/`; the spec names the states Empty, Receiving,
Complete and Dropped. -/
inductive FrameState where
  | empty
  | receiving
  | complete
  | dropped
deriving DecidableEq, Repr

/-- `Lpd::FemReceiveState` from `LpdDefinitions.h`.  `packet_state` is the
per-sequence-index storage-slot table; the writer of this table (the
frame-receiver decoder implementation) is not under `src/`.  Modelled
from the spec: entries are u16 storage-slot values with 65535 as the
missing-packet sentinel, so entries are modelled as unbounded `Nat`
(the declaration in `LpdDefinitions.h` is a zero-length flexible-array
type pun over the same storage). -/
structure FemReceiveState where
  packets_received : Nat
  sof_marker_count : Nat
  eof_marker_count : Nat
  packet_state : Nat → Nat

/-- `Lpd::FrameHeader` from `LpdDefinitions.h` (the `frame_start_time`
timestamp is wall-clock state and is not modelled). -/
structure FrameHeader where
  frame_number : Nat
  frame_state : FrameState
  total_packets_received : Nat
  total_sof_marker_count : Nat
  total_eof_marker_count : Nat
  num_active_fems : Nat
  active_fem_idx : Nat → Nat
  fem_rx_state : Nat → FemReceiveState

/-! ## Plugin state and configuration (`LpdProcessPlugin.cpp`) -/

/-- The member variables of `LpdProcessPlugin` that the embedded
operations read or write. -/
structure PluginState where
  image_width : Nat
  image_height : Nat
  image_pixels : Nat
  num_images : Nat
  packets_lost : Nat
  image_counter : Nat
deriving DecidableEq, Repr

/-- The constructor initialisation list of `LpdProcessPlugin`. -/
def initialPluginState : PluginState :=
  { image_width := 256
    image_height := 256
    image_pixels := 256 * 256
    num_images := 20
    packets_lost := 0
    image_counter := 0 }

/-- A configuration message, as observed by `LpdProcessPlugin::configure`:
for each supported key, either the key is absent (`none`) or present
with a value. -/
structure IpcConfig where
  packets_lost : Option Nat
  width : Option Nat
  height : Option Nat
  num_images : Option Nat

/-- `LpdProcessPlugin::configure`: each parameter present in the message
overwrites the corresponding member, then `image_pixels_` is recomputed
as `image_width_ * image_height_`. -/
def configure (config : IpcConfig) (s : PluginState) : PluginState :=
  let s1 := match config.packets_lost with
    | some v => { s with packets_lost := v }
    | none => s
  let s2 := match config.width with
    | some v => { s1 with image_width := v }
    | none => s1
  let s3 := match config.height with
    | some v => { s2 with image_height := v }
    | none => s2
  let s4 := match config.num_images with
    | some v => { s3 with num_images := v }
    | none => s3
  { s4 with image_pixels := s4.image_width * s4.image_height }

/-- `LpdProcessPlugin::process_lost_packets`: when fewer packets were
received than `Lpd::num_packets * num_active_fems`, the shortfall is
added to the cumulative `packets_lost_` counter. -/
def process_lost_packets (hdr : FrameHeader) (s : PluginState) : PluginState :=
  if hdr.total_packets_received < num_packets * hdr.num_active_fems then
    { s with packets_lost :=
        s.packets_lost + (num_packets * hdr.num_active_fems - hdr.total_packets_received) }
  else
    s

/-! ## The pixel-reorder scatter loop of `LpdProcessPlugin::process_frame`

The ASIC geometry constants (`Lpd::num_asic_rows`, `Lpd::num_asic_cols`,
`Lpd::num_pixel_rows_per_asic`, `Lpd::num_pixel_cols_per_asic`) and
`Lpd::image_data_header` are declared in a header that is not under
`src/`; they are kept as parameters of the model (the spec gives their
roles but no numeric values). -/

/-- Modelled from the spec: the ASIC geometry constants used by the
reordering loop, missing from the sources under `src/`. -/
structure Geometry where
  num_asic_rows : Nat
  num_asic_cols : Nat
  num_pixel_rows_per_asic : Nat
  num_pixel_cols_per_asic : Nat
deriving DecidableEq, Repr

/-- `num_pixels_per_row` as computed in `process_frame`:
`Lpd::num_asic_cols * Lpd::num_pixel_cols_per_asic`. -/
def rowPixels (g : Geometry) : Nat :=
  g.num_asic_cols * g.num_pixel_cols_per_asic

/-- The `(image_row, image_col)` coordinates visited by one image's worth
of the nested scatter loops of `process_frame`, in iteration order:
`pixel_row` descending, `pixel_col` ascending, `asic_row` descending,
`asic_col` ascending, with
`image_row = asic_row * num_pixel_rows_per_asic + pixel_row` and
`image_col = asic_col * num_pixel_cols_per_asic + pixel_col`. -/
def imageCoords (g : Geometry) : List (Nat × Nat) :=
  (List.range g.num_pixel_rows_per_asic).reverse.flatMap fun pixel_row =>
    (List.range g.num_pixel_cols_per_asic).flatMap fun pixel_col =>
      (List.range g.num_asic_rows).reverse.flatMap fun asic_row =>
        (List.range g.num_asic_cols).map fun asic_col =>
          (asic_row * g.num_pixel_rows_per_asic + pixel_row,
           asic_col * g.num_pixel_cols_per_asic + pixel_col)

/-- The packet-walk state threaded through the scatter loops of
`process_frame`: `pkt_num`, `pkt_slot`, `pkt_offset` and `pixel_offset`. -/
structure PktCursor where
  pkt_num : Nat
  pkt_slot : Nat
  pkt_offset : Nat
  pixel_offset : Nat
deriving DecidableEq, Repr

/-- The initialisation of the packet walk before the image loop of each
FEM iteration: `pkt_num = 0`, `pkt_slot = packet_state[0][0]`,
`pkt_offset = pkt_slot * (primary_packet_size / 2)`, `pixel_offset = 0`. -/
def initCursor (st : Nat → Nat) : PktCursor :=
  { pkt_num := 0
    pkt_slot := st 0
    pkt_offset := st 0 * packet_samples
    pixel_offset := 0 }

/-- The "find next packet" step at the top of the innermost loop body of
`process_frame`: when `pixel_offset` has reached the packet capacity the
walk advances to the next sequence slot. -/
def advanceCursor (st : Nat → Nat) (c : PktCursor) : PktCursor :=
  if c.pixel_offset ≥ packet_samples then
    { pkt_num := c.pkt_num + 1
      pkt_slot := st (c.pkt_num + 1)
      pkt_offset := st (c.pkt_num + 1) * packet_samples
      pixel_offset := 0 }
  else
    c

/-- One 16-bit store into the reordered-image buffer: target sample
offset and stored sample value. -/
structure Write where
  offset : Nat
  val : Nat
deriving DecidableEq, Repr

/-- The innermost loop body of `process_frame` over a list of output
coordinates: advance the packet walk if needed, perform one store
(copying `input[image_data_header/2 + pkt_offset + pixel_offset]` when
`pkt_slot < 65535`, storing zero otherwise), then increment
`pixel_offset`.  Returns the store trace and the final walk state. -/
def runCoords (st input : Nat → Nat) (hdrSamples rp : Nat) :
    List (Nat × Nat) → PktCursor → List Write × PktCursor
  | [], c => ([], c)
  | rc :: rest, c =>
    let d := advanceCursor st c
    let w : Write :=
      { offset := rc.1 * rp + rc.2
        val := if d.pkt_slot < 65535 then
                 input (hdrSamples + d.pkt_offset + d.pixel_offset)
               else 0 }
    let r := runCoords st input hdrSamples rp rest
      { d with pixel_offset := d.pixel_offset + 1 }
    (w :: r.1, r.2)

/-- Replay a store trace onto a buffer modelled as `Nat → Nat`. -/
def applyWrites : List Write → (Nat → Nat) → Nat → Nat
  | [], b => b
  | w :: ws, b => applyWrites ws (fun i => if i = w.offset then w.val else b i)

/-- The pixel plane captured by `copy_data(reordered_image, image_size)`:
the first `image_width * image_height` 16-bit samples of the buffer. -/
def plane (b : Nat → Nat) (width height : Nat) : List Nat :=
  (List.range (width * height)).map b

/-- One outbound dataset pushed by `process_frame`.  `seq` is the value
passed to `set_frame_number` (the plugin's `image_counter_`). -/
inductive Output where
  | data (seq : Nat) (pixels : List Nat)
  | imgNum (seq : Nat) (val : Nat)
  | frameNum (seq : Nat) (val : Nat)
deriving DecidableEq, Repr

/-- The result of one FEM iteration of the reordering loop. -/
structure FemResult where
  writes : List Write
  outputs : List Output
  counter : Nat
  buf : Option (Nat → Nat)
  faulted : Bool

/-- The image loop of one FEM iteration of `process_frame`.  The buffer is
`some b` while `reordered_image` is non-null and `none` after it has been
freed; a store attempted while the buffer is null is a fault (the C++
dereferences a null pointer there and the process dies, so nothing after
the fault executes).  Per image: run the scatter loops, then — only when
the buffer is non-null, per the `if (reordered_image)` guard — push the
pixel-plane, image-number and frame-number datasets, all stamped with the
current `image_counter_`; `image_counter_` is incremented per image
regardless. -/
def processImagesFem (g : Geometry) (hdrSamples : Nat) (st input : Nat → Nat)
    (frameNo width height : Nat) :
    Nat → Nat → PktCursor → Option (Nat → Nat) → Nat → FemResult
  | 0, _image, _c, buf, counter =>
    { writes := [], outputs := [], counter := counter, buf := buf, faulted := false }
  | m + 1, image, c, buf, counter =>
    match buf with
    | some b =>
      let p := runCoords st input hdrSamples (rowPixels g) (imageCoords g) c
      let b2 := applyWrites p.1 b
      let outs := [Output.data counter (plane b2 width height),
                   Output.imgNum counter image,
                   Output.frameNum counter frameNo]
      let r := processImagesFem g hdrSamples st input frameNo width height
        m (image + 1) p.2 (some b2) (counter + 1)
      { writes := p.1 ++ r.writes, outputs := outs ++ r.outputs,
        counter := r.counter, buf := r.buf, faulted := r.faulted }
    | none =>
      if imageCoords g = [] then
        let r := processImagesFem g hdrSamples st input frameNo width height
          m (image + 1) c none (counter + 1)
        { writes := r.writes, outputs := r.outputs,
          counter := r.counter, buf := r.buf, faulted := r.faulted }
      else
        { writes := [], outputs := [], counter := counter, buf := none, faulted := true }

/-- The accumulated result of the FEM loop of `process_frame`. -/
structure FemsResult where
  writes : List Write
  outputs : List Output
  counter : Nat
  faulted : Bool

/-- The FEM loop of `process_frame`.  Every iteration looks its packet
slots up in `fem_rx_state->packet_state[0][...]`, i.e. in the receive
state of FEM-state slot 0, and reads its input region at
`data_ptr + max_frame_size * idx` (modelled by `inputs idx`); at the end
of each iteration the reordered-image buffer is freed and set to null,
so every iteration after the first runs with a null buffer. -/
def processFems (g : Geometry) (hdrSamples : Nat) (hdr : FrameHeader)
    (inputs : Nat → Nat → Nat) (width height numImages : Nat) :
    Nat → Nat → Option (Nat → Nat) → Nat → FemsResult
  | 0, _idx, _buf, counter =>
    { writes := [], outputs := [], counter := counter, faulted := false }
  | n + 1, idx, buf, counter =>
    let st := (hdr.fem_rx_state 0).packet_state
    let r := processImagesFem g hdrSamples st (inputs idx) hdr.frame_number
      width height numImages 0 (initCursor st) buf counter
    if r.faulted then
      { writes := r.writes, outputs := r.outputs, counter := r.counter, faulted := true }
    else
      let rest := processFems g hdrSamples hdr inputs width height numImages
        n (idx + 1) none r.counter
      { writes := r.writes ++ rest.writes, outputs := r.outputs ++ rest.outputs,
        counter := rest.counter, faulted := rest.faulted }

/-- The observable result of one `process_frame` call. -/
structure FrameResult where
  state : PluginState
  outputs : List Output
  writes : List Write
  faulted : Bool
deriving DecidableEq, Repr

/-- `LpdProcessPlugin::process_frame`.  First `process_lost_packets` runs;
then the reordered-image buffer is allocated (`allocOk = false` models
`malloc` returning null, in which case the thrown `runtime_error` is
caught inside `process_frame` itself: the buffer is freed, the error is
logged and the call returns with no datasets pushed); then the FEM loop
reorders and pushes.  `init` is the (uninitialised) content of the
freshly allocated buffer; `inputs idx` is the 16-bit sample stream of the
input region for FEM loop position `idx`. -/
def process_frame (g : Geometry) (hdrSamples : Nat) (allocOk : Bool)
    (init : Nat → Nat) (hdr : FrameHeader) (inputs : Nat → Nat → Nat)
    (s : PluginState) : FrameResult :=
  let s1 := process_lost_packets hdr s
  if allocOk then
    let r := processFems g hdrSamples hdr inputs s1.image_width s1.image_height
      s1.num_images hdr.num_active_fems 0 (some init) s1.image_counter
    { state := { s1 with image_counter := r.counter },
      outputs := r.outputs, writes := r.writes, faulted := r.faulted }
  else
    { state := s1, outputs := [], writes := [], faulted := false }

/-! ## Frame-assembly completion (spec-modelled) -/

/-- Modelled from the spec: the per-FEM completion test of the
frame-assembly state machine (the frame-receiver decoder implementation
is not under `src/`): `sof_marker_count == 1`, `eof_marker_count == 1`
and `packets_received` equal to the expected per-FEM packet count for
the configured bit depth. -/
def fem_complete (st : FemReceiveState) (bit_depth : AsicCounterBitDepth) : Bool :=
  st.sof_marker_count == 1 && st.eof_marker_count == 1 &&
    st.packets_received == num_fem_frame_packets bit_depth

/-- Modelled from the spec: the frame completion check, evaluated over
every active FEM of the frame. -/
def frame_complete (hdr : FrameHeader) (bit_depth : AsicCounterBitDepth) : Bool :=
  (List.range hdr.num_active_fems).all fun i =>
    fem_complete (hdr.fem_rx_state (hdr.active_fem_idx i)) bit_depth

/-- Modelled from the spec: the terminal transition of a Receiving frame
buffer — Complete when the completion check holds, otherwise Dropped
with `lost = expected − received`.  Returns the updated header and the
lost-packet contribution of the frame. -/
def finalise_frame (hdr : FrameHeader) (bit_depth : AsicCounterBitDepth) :
    FrameHeader × Nat :=
  if frame_complete hdr bit_depth then
    ({ hdr with frame_state := FrameState.complete }, 0)
  else
    ({ hdr with frame_state := FrameState.dropped },
     num_fem_frame_packets bit_depth * hdr.num_active_fems - hdr.total_packets_received)

/-! ## Numeric values of the bit masks -/

theorem start_of_frame_mask_eq : start_of_frame_mask = 2 ^ 31 := by
  simp [start_of_frame_mask, Nat.shiftLeft_eq]

theorem end_of_frame_mask_eq : end_of_frame_mask = 2 ^ 30 := by
  simp [end_of_frame_mask, Nat.shiftLeft_eq]

theorem packet_number_mask_eq : packet_number_mask = 2 ^ 30 - 1 := by
  norm_num [packet_number_mask]

/-! ## Claim theorems: configuration, loss accounting, allocation failure,
trailer codec -/

/-- C9: a configure message sets `packets_lost_` to exactly the supplied
value when the key is present; each of width, height, num_images and
packets_lost keeps its previous value when its key is absent; the image
counter is untouched; and the derived pixel count always equals the
product of the (possibly updated) width and height. -/
theorem C9_configure_semantics (config : IpcConfig) (s : PluginState) :
    (∀ v, config.packets_lost = some v → (configure config s).packets_lost = v) ∧
    (config.packets_lost = none → (configure config s).packets_lost = s.packets_lost) ∧
    (config.width = none → (configure config s).image_width = s.image_width) ∧
    (config.height = none → (configure config s).image_height = s.image_height) ∧
    (config.num_images = none → (configure config s).num_images = s.num_images) ∧
    (configure config s).image_counter = s.image_counter ∧
    (configure config s).image_pixels =
      (configure config s).image_width * (configure config s).image_height := by
  rcases config with ⟨pl, w, h, ni⟩
  cases pl <;> cases w <;> cases h <;> cases ni <;> simp [configure]

/-- Witness for C9 at a concrete configure message. -/
theorem C9_configure_semantics_witness :
    (configure ⟨some 5, none, none, none⟩ initialPluginState).packets_lost = 5 ∧
    (configure ⟨some 5, none, none, none⟩ initialPluginState).image_width = 256 :=
  ⟨(C9_configure_semantics ⟨some 5, none, none, none⟩ initialPluginState).1 5 rfl,
   ((C9_configure_semantics ⟨some 5, none, none, none⟩ initialPluginState).2.2.1 rfl).trans
     rfl⟩

/-- C3: across every `process_frame` call — whatever the allocation
outcome, FEM population or reorder behaviour — the cumulative
`packets_lost_` counter changes exactly by the shortfall
`expected − received` computed by the single up-front
`process_lost_packets` call (`expected = Lpd::num_packets *
num_active_fems`), and is unchanged when at least `expected` packets
were received; no later part of the call touches the counter. -/
theorem C3_lost_packets_accounting (g : Geometry) (hdrSamples : Nat)
    (allocOk : Bool) (init : Nat → Nat) (hdr : FrameHeader)
    (inputs : Nat → Nat → Nat) (s : PluginState) :
    (process_frame g hdrSamples allocOk init hdr inputs s).state.packets_lost =
      if hdr.total_packets_received < num_packets * hdr.num_active_fems then
        s.packets_lost + (num_packets * hdr.num_active_fems - hdr.total_packets_received)
      else
        s.packets_lost := by
  cases allocOk <;>
    simp only [process_frame, process_lost_packets, Bool.false_eq_true, if_false,
      if_true] <;>
    split <;> simp

/-- C8: when the reordered-image buffer allocation fails, `process_frame`
returns normally (the exception is caught inside the call): no dataset
is pushed, no pixel store happens, no fault escapes, and the plugin
state keeps the `packets_lost_` update already made by
`process_lost_packets` while everything else (including the image
counter) is unchanged. -/
theorem C8_alloc_failure_aborts (g : Geometry) (hdrSamples : Nat)
    (init : Nat → Nat) (hdr : FrameHeader) (inputs : Nat → Nat → Nat)
    (s : PluginState) :
    (process_frame g hdrSamples false init hdr inputs s).outputs = [] ∧
    (process_frame g hdrSamples false init hdr inputs s).writes = [] ∧
    (process_frame g hdrSamples false init hdr inputs s).faulted = false ∧
    (process_frame g hdrSamples false init hdr inputs s).state =
      process_lost_packets hdr s := by
  simp [process_frame]

theorem and_two_pow_div_mod (x n : Nat) :
    x &&& 2 ^ n = (if x / 2 ^ n % 2 = 1 then 2 ^ n else 0) := by
  rw [Nat.and_two_pow, Nat.testBit_to_div_mod]
  by_cases h : x / 2 ^ n % 2 = 1 <;> simp [h]

/-- C4: decoding a trailer that encodes a 32-bit frame number, a 30-bit
packet number and the two flags recovers all four fields: the frame
number as the raw 32-bit word, the packet number as
`packet_number_flags & 0x3FFFFFFF`, and the flags as the non-zeroness of
the masked top two bits — so `decode(encode(x)) == x`. -/
theorem C4_trailer_round_trip (frame packet : Nat) (sof eof : Bool)
    (hframe : frame < 2 ^ 32) (hpacket : packet < 2 ^ 30) :
    get_frame_number (encode_trailer frame packet sof eof) = frame ∧
    get_packet_number (encode_trailer frame packet sof eof) = packet ∧
    get_start_of_frame_marker (encode_trailer frame packet sof eof) = sof ∧
    get_end_of_frame_marker (encode_trailer frame packet sof eof) = eof := by
  have hp : packet % 2 ^ 30 = packet := Nat.mod_eq_of_lt hpacket
  refine ⟨Nat.mod_eq_of_lt hframe, ?_, ?_, ?_⟩
  · show (packet % 2 ^ 30 + _ + _) &&& packet_number_mask = packet
    rw [packet_number_mask_eq, Nat.and_pow_two_sub_one_eq_mod, hp,
      start_of_frame_mask_eq, end_of_frame_mask_eq]
    cases sof <;> cases eof <;> simp <;> omega
  · show ((packet % 2 ^ 30 + _ + _) &&& start_of_frame_mask != 0) = sof
    rw [start_of_frame_mask_eq, end_of_frame_mask_eq, hp,
      and_two_pow_div_mod]
    cases sof <;> cases eof <;> simp <;> omega
  · show ((packet % 2 ^ 30 + _ + _) &&& end_of_frame_mask != 0) = eof
    rw [start_of_frame_mask_eq, end_of_frame_mask_eq, hp,
      and_two_pow_div_mod]
    cases sof <;> cases eof <;> simp <;> omega

/-- Witness for C4 at a concrete trailer. -/
theorem C4_trailer_round_trip_witness :
    7 < 2 ^ 32 ∧ 300 < 2 ^ 30 ∧
    get_frame_number (encode_trailer 7 300 true false) = 7 ∧
    get_packet_number (encode_trailer 7 300 true false) = 300 ∧
    get_start_of_frame_marker (encode_trailer 7 300 true false) = true ∧
    get_end_of_frame_marker (encode_trailer 7 300 true false) = false :=
  ⟨by norm_num, by norm_num,
   C4_trailer_round_trip 7 300 true false (by norm_num) (by norm_num)⟩

/-- C7: a Receiving frame buffer reaches the Complete state if and only
if every active FEM has exactly one start-of-frame marker, exactly one
end-of-frame marker and a received-packet count equal to
`num_primary_packets[bit_depth] + num_tail_packets`; the only other
terminal outcome is Dropped, with a lost count of
`expected − received`. -/
theorem C7_complete_iff (hdr : FrameHeader) (bit_depth : AsicCounterBitDepth)
    (_hrecv : hdr.frame_state = FrameState.receiving) :
    ((finalise_frame hdr bit_depth).1.frame_state = FrameState.complete ↔
      ∀ i < hdr.num_active_fems,
        (hdr.fem_rx_state (hdr.active_fem_idx i)).sof_marker_count = 1 ∧
        (hdr.fem_rx_state (hdr.active_fem_idx i)).eof_marker_count = 1 ∧
        (hdr.fem_rx_state (hdr.active_fem_idx i)).packets_received =
          num_fem_frame_packets bit_depth) ∧
    ((finalise_frame hdr bit_depth).1.frame_state ≠ FrameState.complete →
      (finalise_frame hdr bit_depth).1.frame_state = FrameState.dropped ∧
      (finalise_frame hdr bit_depth).2 =
        num_fem_frame_packets bit_depth * hdr.num_active_fems -
          hdr.total_packets_received) := by
  unfold finalise_frame
  by_cases hc : frame_complete hdr bit_depth
  · rw [if_pos hc]
    refine ⟨⟨fun _ => ?_, fun _ => rfl⟩, fun hne => absurd rfl hne⟩
    intro i hi
    have := (List.all_eq_true.mp hc) i (List.mem_range.mpr hi)
    have h2 : ((hdr.fem_rx_state (hdr.active_fem_idx i)).sof_marker_count = 1 ∧
        (hdr.fem_rx_state (hdr.active_fem_idx i)).eof_marker_count = 1) ∧
        (hdr.fem_rx_state (hdr.active_fem_idx i)).packets_received =
          num_fem_frame_packets bit_depth := by
      simpa [fem_complete, Bool.and_eq_true, beq_iff_eq] using this
    exact ⟨h2.1.1, h2.1.2, h2.2⟩
  · rw [if_neg hc]
    constructor
    · constructor
      · intro h
        exact absurd h (by simp)
      · intro hall
        exact absurd (List.all_eq_true.mpr fun i hi => by
          have := hall i (List.mem_range.mp hi)
          simp [fem_complete, Bool.and_eq_true, beq_iff_eq, this.1, this.2.1,
            this.2.2]) hc
    · intro _
      exact ⟨rfl, rfl⟩

/-- Witness for C7: a single-FEM Receiving frame with one SOF, one EOF
and 321 received packets is finalised as Complete. -/
theorem C7_complete_iff_witness :
    (finalise_frame
      { frame_number := 3, frame_state := FrameState.receiving,
        total_packets_received := 321, total_sof_marker_count := 1,
        total_eof_marker_count := 1, num_active_fems := 1,
        active_fem_idx := fun _ => 0,
        fem_rx_state := fun _ =>
          { packets_received := 321, sof_marker_count := 1,
            eof_marker_count := 1, packet_state := fun _ => 0 } }
      AsicCounterBitDepth.bitDepth12).1.frame_state = FrameState.complete :=
  ((C7_complete_iff
      { frame_number := 3, frame_state := FrameState.receiving,
        total_packets_received := 321, total_sof_marker_count := 1,
        total_eof_marker_count := 1, num_active_fems := 1,
        active_fem_idx := fun _ => 0,
        fem_rx_state := fun _ =>
          { packets_received := 321, sof_marker_count := 1,
            eof_marker_count := 1, packet_state := fun _ => 0 } }
      AsicCounterBitDepth.bitDepth12 rfl).1).mpr
    (fun _i _hi => ⟨rfl, rfl, rfl⟩)

/-! ## Characterisation of the packet walk

The sequential packet walk of the scatter loop is proved equal to a
closed form: before the `k`-th store of a FEM iteration the walk sits at
sequence slot `k / packet_samples` with intra-packet offset
`k % packet_samples`. -/

theorem packet_samples_eq : packet_samples = 4092 := rfl

/-- The closed form of the packet-walk state at the `k`-th store. -/
def cursorAt (st : Nat → Nat) (k : Nat) : PktCursor :=
  { pkt_num := k / packet_samples
    pkt_slot := st (k / packet_samples)
    pkt_offset := st (k / packet_samples) * packet_samples
    pixel_offset := k % packet_samples }

theorem advanceCursor_initCursor (st : Nat → Nat) :
    advanceCursor st (initCursor st) = cursorAt st 0 := by
  simp [advanceCursor, initCursor, cursorAt, packet_samples_eq]

theorem advanceCursor_bumped (st : Nat → Nat) (k : Nat) :
    advanceCursor st
      { cursorAt st k with pixel_offset := (cursorAt st k).pixel_offset + 1 } =
      cursorAt st (k + 1) := by
  unfold advanceCursor cursorAt
  simp only [packet_samples_eq]
  by_cases h : k % 4092 + 1 ≥ 4092
  · have h1 : (k + 1) / 4092 = k / 4092 + 1 := by omega
    have h2 : (k + 1) % 4092 = 0 := by omega
    simp [h, h1, h2]
  · have h1 : (k + 1) / 4092 = k / 4092 := by omega
    have h2 : (k + 1) % 4092 = k % 4092 + 1 := by omega
    simp [h, h1, h2]

/-- The store trace of the innermost loops, in closed form: the trace has
one store per coordinate; the `i`-th store's value follows the
missing-packet dichotomy at linear pixel index `k + i`, and its target
offset comes from the `i`-th coordinate. -/
theorem runCoords_spec (st input : Nat → Nat) (hdrSamples rp : Nat) :
    ∀ (coords : List (Nat × Nat)) (k : Nat) (c : PktCursor),
      advanceCursor st c = cursorAt st k →
      (runCoords st input hdrSamples rp coords c).1.length = coords.length ∧
      (∀ i w, (runCoords st input hdrSamples rp coords c).1[i]? = some w →
        (w.val = if st ((k + i) / packet_samples) < 65535 then
            input (hdrSamples + st ((k + i) / packet_samples) * packet_samples +
              (k + i) % packet_samples)
          else 0) ∧
        ∃ rc ∈ coords, w.offset = rc.1 * rp + rc.2) ∧
      advanceCursor st (runCoords st input hdrSamples rp coords c).2 =
        cursorAt st (k + coords.length)
  | [], k, c, hc => by
    refine ⟨rfl, ?_, by simpa using hc⟩
    intro i w hw
    simp [runCoords] at hw
  | rc :: rest, k, c, hc => by
    have hbump : advanceCursor st
        { advanceCursor st c with
          pixel_offset := (advanceCursor st c).pixel_offset + 1 } =
        cursorAt st (k + 1) := by
      rw [hc]; exact advanceCursor_bumped st k
    have ih := runCoords_spec st input hdrSamples rp rest (k + 1)
      { advanceCursor st c with
        pixel_offset := (advanceCursor st c).pixel_offset + 1 } hbump
    refine ⟨?_, ?_, ?_⟩
    · simp only [runCoords]
      simpa using ih.1
    · intro i w hw
      match i with
      | 0 =>
        simp only [runCoords, List.getElem?_cons_zero, Option.some.injEq] at hw
        subst hw
        constructor
        · rw [hc]
          simp [cursorAt]
        · exact ⟨rc, List.mem_cons_self rc rest, rfl⟩
      | i + 1 =>
        simp only [runCoords, List.getElem?_cons_succ] at hw
        have := ih.2.1 i w hw
        have harith : k + 1 + i = k + (i + 1) := by omega
        rw [harith] at this
        exact ⟨this.1, by
          obtain ⟨rc2, hrc2, hoff⟩ := this.2
          exact ⟨rc2, List.mem_cons_of_mem rc hrc2, hoff⟩⟩
    · simp only [runCoords]
      have := ih.2.2
      have harith : k + 1 + rest.length = k + (rest.length + 1) := by omega
      rw [harith] at this
      simpa using this

/-! ## Characterisation of one FEM iteration -/

theorem processImagesFem_some_basic (g : Geometry) (hdrSamples : Nat)
    (st input : Nat → Nat) (frameNo width height : Nat) :
    ∀ (m image : Nat) (c : PktCursor) (b : Nat → Nat) (counter : Nat),
      (processImagesFem g hdrSamples st input frameNo width height m image c
        (some b) counter).faulted = false ∧
      (processImagesFem g hdrSamples st input frameNo width height m image c
        (some b) counter).counter = counter + m ∧
      ∃ b2, (processImagesFem g hdrSamples st input frameNo width height m image c
        (some b) counter).buf = some b2
  | 0, _image, _c, b, _counter => by
    exact ⟨rfl, rfl, b, rfl⟩
  | m + 1, image, c, b, counter => by
    have ih := processImagesFem_some_basic g hdrSamples st input frameNo width height
      m (image + 1)
      (runCoords st input hdrSamples (rowPixels g) (imageCoords g) c).2
      (applyWrites (runCoords st input hdrSamples (rowPixels g) (imageCoords g) c).1 b)
      (counter + 1)
    simp only [processImagesFem]
    exact ⟨ih.1, by rw [ih.2.1]; omega, ih.2.2⟩

theorem processImagesFem_some_writes (g : Geometry) (hdrSamples : Nat)
    (st input : Nat → Nat) (frameNo width height : Nat) :
    ∀ (m image : Nat) (c : PktCursor) (b : Nat → Nat) (counter k : Nat),
      advanceCursor st c = cursorAt st k →
      (processImagesFem g hdrSamples st input frameNo width height m image c
        (some b) counter).writes.length = m * (imageCoords g).length ∧
      (∀ i w,
        (processImagesFem g hdrSamples st input frameNo width height m image c
          (some b) counter).writes[i]? = some w →
        (w.val = if st ((k + i) / packet_samples) < 65535 then
            input (hdrSamples + st ((k + i) / packet_samples) * packet_samples +
              (k + i) % packet_samples)
          else 0) ∧
        ∃ rc ∈ imageCoords g, w.offset = rc.1 * rowPixels g + rc.2)
  | 0, _image, _c, _b, _counter, k, _hc => by
    refine ⟨by simp [processImagesFem], ?_⟩
    intro i w hw
    simp [processImagesFem] at hw
  | m + 1, image, c, b, counter, k, hc => by
    have hrun := runCoords_spec st input hdrSamples (rowPixels g)
      (imageCoords g) k c hc
    have ih := processImagesFem_some_writes g hdrSamples st input frameNo width height
      m (image + 1)
      (runCoords st input hdrSamples (rowPixels g) (imageCoords g) c).2
      (applyWrites (runCoords st input hdrSamples (rowPixels g) (imageCoords g) c).1 b)
      (counter + 1) (k + (imageCoords g).length) hrun.2.2
    simp only [processImagesFem]
    constructor
    · rw [List.length_append, hrun.1, ih.1]; ring
    · intro i w hw
      by_cases hi : i <
          (runCoords st input hdrSamples (rowPixels g) (imageCoords g) c).1.length
      · rw [List.getElem?_append_left hi] at hw
        exact hrun.2.1 i w hw
      · rw [List.getElem?_append_right (Nat.le_of_not_lt hi)] at hw
        have := ih.2 _ w hw
        rw [hrun.1] at hi
        have harith : k + (imageCoords g).length +
            (i - (runCoords st input hdrSamples (rowPixels g) (imageCoords g) c).1.length) =
            k + i := by
          rw [hrun.1]
          omega
        rwa [harith] at this

theorem processImagesFem_some_outputs (g : Geometry) (hdrSamples : Nat)
    (st input : Nat → Nat) (frameNo width height : Nat) :
    ∀ (m image : Nat) (c : PktCursor) (b : Nat → Nat) (counter : Nat),
      (processImagesFem g hdrSamples st input frameNo width height m image c
        (some b) counter).outputs.length = 3 * m ∧
      (∀ i, i < m →
        (∃ pix, (processImagesFem g hdrSamples st input frameNo width height m image c
          (some b) counter).outputs[3 * i]? = some (Output.data (counter + i) pix)) ∧
        (processImagesFem g hdrSamples st input frameNo width height m image c
          (some b) counter).outputs[3 * i + 1]? =
            some (Output.imgNum (counter + i) (image + i)) ∧
        (processImagesFem g hdrSamples st input frameNo width height m image c
          (some b) counter).outputs[3 * i + 2]? =
            some (Output.frameNum (counter + i) frameNo))
  | 0, _image, _c, _b, _counter => by
    refine ⟨rfl, ?_⟩
    intro i hi
    omega
  | m + 1, image, c, b, counter => by
    have ih := processImagesFem_some_outputs g hdrSamples st input frameNo width height
      m (image + 1)
      (runCoords st input hdrSamples (rowPixels g) (imageCoords g) c).2
      (applyWrites (runCoords st input hdrSamples (rowPixels g) (imageCoords g) c).1 b)
      (counter + 1)
    simp only [processImagesFem]
    constructor
    · simp only [List.cons_append, List.nil_append, List.length_cons, ih.1]
      ring
    · intro i hi
      match i with
      | 0 =>
        refine ⟨⟨plane (applyWrites
          (runCoords st input hdrSamples (rowPixels g) (imageCoords g) c).1 b)
          width height, ?_⟩, ?_, ?_⟩ <;> simp
      | i + 1 =>
        have hi' : i < m := by omega
        have hx := ih.2 i hi'
        have e1 : counter + 1 + i = counter + (i + 1) := by omega
        have e2 : image + 1 + i = image + (i + 1) := by omega
        rw [e1, e2] at hx
        have g0 : 3 * (i + 1) = 3 * i + 1 + 1 + 1 := by ring
        have g1 : 3 * (i + 1) + 1 = 3 * i + 1 + 1 + 1 + 1 := by ring
        have g2 : 3 * (i + 1) + 2 = 3 * i + 2 + 1 + 1 + 1 := by ring
        refine ⟨?_, ?_, ?_⟩
        · obtain ⟨pix, hpix⟩ := hx.1
          refine ⟨pix, ?_⟩
          rw [g0]
          simpa only [List.cons_append, List.nil_append,
            List.getElem?_cons_succ] using hpix
        · rw [g1]
          simpa only [List.cons_append, List.nil_append,
            List.getElem?_cons_succ] using hx.2.1
        · rw [g2]
          simpa only [List.cons_append, List.nil_append,
            List.getElem?_cons_succ] using hx.2.2

/-- A FEM iteration that starts with the reordered-image buffer already
freed performs no store and pushes nothing: either its first store
faults, or (with no pixels to visit) every push is skipped by the
null-buffer guard.  The buffer stays null. -/
theorem processImagesFem_none_empty (g : Geometry) (hdrSamples : Nat)
    (st input : Nat → Nat) (frameNo width height : Nat) :
    ∀ (m image : Nat) (c : PktCursor) (counter : Nat),
      (processImagesFem g hdrSamples st input frameNo width height m image c
        none counter).writes = [] ∧
      (processImagesFem g hdrSamples st input frameNo width height m image c
        none counter).outputs = [] ∧
      (processImagesFem g hdrSamples st input frameNo width height m image c
        none counter).buf = none
  | 0, _image, _c, _counter => ⟨rfl, rfl, rfl⟩
  | m + 1, image, c, counter => by
    have ih := processImagesFem_none_empty g hdrSamples st input frameNo width height
      m (image + 1) c (counter + 1)
    simp only [processImagesFem]
    by_cases hg : imageCoords g = []
    · rw [if_pos hg]
      exact ih
    · rw [if_neg hg]
      exact ⟨rfl, rfl, rfl⟩

/-- Every FEM loop iteration after the first runs with a null buffer and
therefore contributes no store and no pushed dataset. -/
theorem processFems_none_empty (g : Geometry) (hdrSamples : Nat)
    (hdr : FrameHeader) (inputs : Nat → Nat → Nat)
    (width height numImages : Nat) :
    ∀ (n idx counter : Nat),
      (processFems g hdrSamples hdr inputs width height numImages n idx
        none counter).writes = [] ∧
      (processFems g hdrSamples hdr inputs width height numImages n idx
        none counter).outputs = []
  | 0, _idx, _counter => ⟨rfl, rfl⟩
  | n + 1, idx, counter => by
    have hfem := processImagesFem_none_empty g hdrSamples
      (hdr.fem_rx_state 0).packet_state (inputs idx) hdr.frame_number width height
      numImages 0 (initCursor (hdr.fem_rx_state 0).packet_state) counter
    simp only [processFems]
    by_cases hf : (processImagesFem g hdrSamples (hdr.fem_rx_state 0).packet_state
        (inputs idx) hdr.frame_number width height numImages 0
        (initCursor (hdr.fem_rx_state 0).packet_state) none counter).faulted
    · rw [if_pos hf]
      exact ⟨hfem.1, hfem.2.1⟩
    · rw [if_neg hf]
      have ih := processFems_none_empty g hdrSamples hdr inputs width height numImages
        n (idx + 1)
        (processImagesFem g hdrSamples (hdr.fem_rx_state 0).packet_state
          (inputs idx) hdr.frame_number width height numImages 0
          (initCursor (hdr.fem_rx_state 0).packet_state) none counter).counter
      simp [hfem.1, hfem.2.1, ih.1, ih.2]

theorem process_lost_packets_image_width (hdr : FrameHeader) (s : PluginState) :
    (process_lost_packets hdr s).image_width = s.image_width := by
  unfold process_lost_packets
  split <;> rfl

theorem process_lost_packets_image_height (hdr : FrameHeader) (s : PluginState) :
    (process_lost_packets hdr s).image_height = s.image_height := by
  unfold process_lost_packets
  split <;> rfl

theorem process_lost_packets_num_images (hdr : FrameHeader) (s : PluginState) :
    (process_lost_packets hdr s).num_images = s.num_images := by
  unfold process_lost_packets
  split <;> rfl

theorem process_lost_packets_image_counter (hdr : FrameHeader) (s : PluginState) :
    (process_lost_packets hdr s).image_counter = s.image_counter := by
  unfold process_lost_packets
  split <;> rfl

/-- With at least one active FEM, the store trace and the pushed datasets
of a `process_frame` call are exactly those of the first FEM loop
iteration: the buffer is freed at the end of that iteration, so no later
iteration stores or pushes anything. -/
theorem process_frame_eq_fem0 (g : Geometry) (hdrSamples : Nat)
    (init : Nat → Nat) (hdr : FrameHeader) (inputs : Nat → Nat → Nat)
    (s : PluginState) (hn : 1 ≤ hdr.num_active_fems) :
    (process_frame g hdrSamples true init hdr inputs s).writes =
      (processImagesFem g hdrSamples (hdr.fem_rx_state 0).packet_state (inputs 0)
        hdr.frame_number s.image_width s.image_height s.num_images 0
        (initCursor (hdr.fem_rx_state 0).packet_state) (some init)
        s.image_counter).writes ∧
    (process_frame g hdrSamples true init hdr inputs s).outputs =
      (processImagesFem g hdrSamples (hdr.fem_rx_state 0).packet_state (inputs 0)
        hdr.frame_number s.image_width s.image_height s.num_images 0
        (initCursor (hdr.fem_rx_state 0).packet_state) (some init)
        s.image_counter).outputs := by
  obtain ⟨n, hn2⟩ : ∃ n, hdr.num_active_fems = n + 1 :=
    ⟨hdr.num_active_fems - 1, by omega⟩
  have hbasic := processImagesFem_some_basic g hdrSamples
    (hdr.fem_rx_state 0).packet_state (inputs 0) hdr.frame_number
    s.image_width s.image_height s.num_images 0
    (initCursor (hdr.fem_rx_state 0).packet_state) init s.image_counter
  have hrest := processFems_none_empty g hdrSamples hdr inputs
    s.image_width s.image_height s.num_images n 1
    (processImagesFem g hdrSamples (hdr.fem_rx_state 0).packet_state (inputs 0)
      hdr.frame_number s.image_width s.image_height s.num_images 0
      (initCursor (hdr.fem_rx_state 0).packet_state) (some init)
      s.image_counter).counter
  simp only [process_frame, if_pos, hn2, process_lost_packets_image_width,
    process_lost_packets_image_height, process_lost_packets_num_images,
    process_lost_packets_image_counter, processFems]
  rw [if_neg (by rw [hbasic.1]; exact Bool.false_ne_true)]
  simp [hrest.1, hrest.2]

theorem process_frame_no_fems_writes (g : Geometry) (hdrSamples : Nat)
    (init : Nat → Nat) (hdr : FrameHeader) (inputs : Nat → Nat → Nat)
    (s : PluginState) (h0 : hdr.num_active_fems = 0) :
    (process_frame g hdrSamples true init hdr inputs s).writes = [] := by
  simp [process_frame, h0, processFems]

/-- C1: for every store performed by `process_frame` — the `k`-th store
of the frame being served by packet sequence index `k / packet_samples`
— if the consulted `packet_state` entry for that packet holds the
missing-packet sentinel 65535 the stored pixel value is exactly zero,
and if the entry is a valid slot (< 65535) the stored value is copied
verbatim from the input buffer at the resolved offset
`image_data_header/2 + slot * packet_samples + k % packet_samples`. -/
theorem C1_missing_packet_zero_or_copy (g : Geometry) (hdrSamples : Nat)
    (init : Nat → Nat) (hdr : FrameHeader) (inputs : Nat → Nat → Nat)
    (s : PluginState) (k : Nat) (w : Write)
    (hw : (process_frame g hdrSamples true init hdr inputs s).writes[k]? = some w) :
    ((hdr.fem_rx_state 0).packet_state (k / packet_samples) = 65535 → w.val = 0) ∧
    ((hdr.fem_rx_state 0).packet_state (k / packet_samples) < 65535 →
      w.val = inputs 0 (hdrSamples +
        (hdr.fem_rx_state 0).packet_state (k / packet_samples) * packet_samples +
        k % packet_samples)) := by
  rcases Nat.eq_zero_or_pos hdr.num_active_fems with h0 | hpos
  · rw [process_frame_no_fems_writes g hdrSamples init hdr inputs s h0] at hw
    simp at hw
  · rw [(process_frame_eq_fem0 g hdrSamples init hdr inputs s hpos).1] at hw
    have hws := processImagesFem_some_writes g hdrSamples
      (hdr.fem_rx_state 0).packet_state (inputs 0) hdr.frame_number
      s.image_width s.image_height s.num_images 0
      (initCursor (hdr.fem_rx_state 0).packet_state) init s.image_counter 0
      (advanceCursor_initCursor (hdr.fem_rx_state 0).packet_state)
    have hv := (hws.2 k w hw).1
    simp only [Nat.zero_add] at hv
    constructor
    · intro hsent
      rw [hv, if_neg (by omega)]
    · intro hlt
      rw [hv, if_pos hlt]

/-! ## Concrete fixtures

A small spec-modelled geometry (one ASIC of 2×2 pixels) used to evaluate
the embedded `process_frame` on concrete frames. -/

def testGeometry : Geometry :=
  { num_asic_rows := 1, num_asic_cols := 1,
    num_pixel_rows_per_asic := 2, num_pixel_cols_per_asic := 2 }

def testState : PluginState :=
  { image_width := 1, image_height := 1, image_pixels := 1, num_images := 1,
    packets_lost := 0, image_counter := 0 }

/-- A single-FEM frame whose every `packet_state` entry is the
missing-packet sentinel. -/
def missingHeader : FrameHeader :=
  { frame_number := 11, frame_state := FrameState.receiving,
    total_packets_received := 0, total_sof_marker_count := 0,
    total_eof_marker_count := 0, num_active_fems := 1,
    active_fem_idx := fun i => i,
    fem_rx_state := fun _ =>
      { packets_received := 0, sof_marker_count := 0, eof_marker_count := 0,
        packet_state := fun _ => 65535 } }

/-- A frame with two active FEMs: FEM 0 with every packet present in
slot order, FEM 1 with every packet missing. -/
def twoFemHeader : FrameHeader :=
  { frame_number := 12, frame_state := FrameState.receiving,
    total_packets_received := 321, total_sof_marker_count := 1,
    total_eof_marker_count := 1, num_active_fems := 2,
    active_fem_idx := fun i => i,
    fem_rx_state := fun i =>
      if i = 0 then
        { packets_received := 321, sof_marker_count := 1, eof_marker_count := 1,
          packet_state := fun _ => 0 }
      else
        { packets_received := 0, sof_marker_count := 0, eof_marker_count := 0,
          packet_state := fun _ => 65535 } }

/-- Witness for C1: on a concrete frame whose first packet is missing,
the first store writes value zero. -/
theorem C1_missing_packet_zero_or_copy_witness :
    (process_frame testGeometry 0 true (fun _ => 7) missingHeader (fun _ _ => 9)
      testState).writes[0]? = some { offset := 2, val := 0 } ∧
    (missingHeader.fem_rx_state 0).packet_state (0 / packet_samples) = 65535 ∧
    ({ offset := 2, val := 0 } : Write).val = 0 :=
  ⟨by decide, rfl,
   (C1_missing_packet_zero_or_copy testGeometry 0 (fun _ => 7) missingHeader
     (fun _ _ => 9) testState 0 { offset := 2, val := 0 } (by decide)).1 rfl⟩

theorem imageCoords_bound (g : Geometry) (rc : Nat × Nat)
    (h : rc ∈ imageCoords g) :
    rc.1 < g.num_asic_rows * g.num_pixel_rows_per_asic ∧
    rc.2 < g.num_asic_cols * g.num_pixel_cols_per_asic := by
  simp only [imageCoords, List.mem_flatMap, List.mem_reverse, List.mem_range,
    List.mem_map] at h
  obtain ⟨pr, hpr, pc, hpc, ar, har, ac, hac, heq⟩ := h
  subst heq
  constructor
  · calc ar * g.num_pixel_rows_per_asic + pr
        < ar * g.num_pixel_rows_per_asic + g.num_pixel_rows_per_asic :=
          Nat.add_lt_add_left hpr _
      _ = (ar + 1) * g.num_pixel_rows_per_asic := by ring
      _ ≤ g.num_asic_rows * g.num_pixel_rows_per_asic :=
          Nat.mul_le_mul_right _ (Nat.succ_le_of_lt har)
  · calc ac * g.num_pixel_cols_per_asic + pc
        < ac * g.num_pixel_cols_per_asic + g.num_pixel_cols_per_asic :=
          Nat.add_lt_add_left hpc _
      _ = (ac + 1) * g.num_pixel_cols_per_asic := by ring
      _ ≤ g.num_asic_cols * g.num_pixel_cols_per_asic :=
          Nat.mul_le_mul_right _ (Nat.succ_le_of_lt hac)

/-- C5 (amended): every store performed by `process_frame` targets a
sample offset below the fixed FEM stripe pixel count
`(num_asic_rows * num_pixel_rows_per_asic) *
(num_asic_cols * num_pixel_cols_per_asic)`, for every frame and every
pattern of missing packets; the write therefore stays inside the
allocated reordered-image buffer exactly when
`image_width * image_height` is at least that stripe pixel count — the
stores do not depend on the configured width and height at all. -/
theorem C5_write_offset_bound (g : Geometry) (hdrSamples : Nat)
    (init : Nat → Nat) (hdr : FrameHeader) (inputs : Nat → Nat → Nat)
    (s : PluginState) (w : Write)
    (hw : w ∈ (process_frame g hdrSamples true init hdr inputs s).writes) :
    w.offset < (g.num_asic_rows * g.num_pixel_rows_per_asic) *
      (g.num_asic_cols * g.num_pixel_cols_per_asic) := by
  rcases Nat.eq_zero_or_pos hdr.num_active_fems with h0 | hpos
  · rw [process_frame_no_fems_writes g hdrSamples init hdr inputs s h0] at hw
    simp at hw
  · rw [(process_frame_eq_fem0 g hdrSamples init hdr inputs s hpos).1] at hw
    obtain ⟨i, hi⟩ := List.mem_iff_getElem?.mp hw
    have hws := processImagesFem_some_writes g hdrSamples
      (hdr.fem_rx_state 0).packet_state (inputs 0) hdr.frame_number
      s.image_width s.image_height s.num_images 0
      (initCursor (hdr.fem_rx_state 0).packet_state) init s.image_counter 0
      (advanceCursor_initCursor (hdr.fem_rx_state 0).packet_state)
    obtain ⟨rc, hrc, hoff⟩ := (hws.2 i w hi).2
    have hb := imageCoords_bound g rc hrc
    rw [hoff]
    show rc.1 * rowPixels g + rc.2 < _
    unfold rowPixels
    calc rc.1 * (g.num_asic_cols * g.num_pixel_cols_per_asic) + rc.2
        < rc.1 * (g.num_asic_cols * g.num_pixel_cols_per_asic) +
            g.num_asic_cols * g.num_pixel_cols_per_asic :=
          Nat.add_lt_add_left hb.2 _
      _ = (rc.1 + 1) * (g.num_asic_cols * g.num_pixel_cols_per_asic) := by ring
      _ ≤ (g.num_asic_rows * g.num_pixel_rows_per_asic) *
            (g.num_asic_cols * g.num_pixel_cols_per_asic) :=
          Nat.mul_le_mul_right _ (Nat.succ_le_of_lt hb.1)

/-- Witness for C5 (amended) at a concrete frame with a missing packet. -/
theorem C5_write_offset_bound_witness :
    ({ offset := 2, val := 0 } : Write) ∈
      (process_frame testGeometry 0 true (fun _ => 7) missingHeader (fun _ _ => 9)
        testState).writes ∧
    ({ offset := 2, val := 0 } : Write).offset <
      (testGeometry.num_asic_rows * testGeometry.num_pixel_rows_per_asic) *
        (testGeometry.num_asic_cols * testGeometry.num_pixel_cols_per_asic) :=
  ⟨by decide,
   C5_write_offset_bound testGeometry 0 (fun _ => 7) missingHeader (fun _ _ => 9)
     testState { offset := 2, val := 0 } (by decide)⟩

/-- Counterexample to C5 as stated: with the image configured to
1×1 pixels the scatter loop still stores at sample offset 2, which is at
or beyond `image_width * image_height` — the stores depend only on the
ASIC geometry, not on the configured image dimensions, so an
out-of-bounds write occurs for any configuration smaller than the
stripe. -/
theorem C5_out_of_bounds_counterexample :
    ¬ ∀ w ∈ (process_frame testGeometry 0 true (fun _ => 7) missingHeader
        (fun _ _ => 9) testState).writes,
      w.offset < testState.image_width * testState.image_height := by
  decide

/-- C10: for every emitted triplet, the `img_num` payload is the image's
zero-based index within its frame, the sequence identifier stamped via
`set_frame_number` on all three datasets of the triplet is the global
image counter value for that image, and the `frame_num` payload is the
originating detector frame number. -/
theorem C10_triplet_payloads (g : Geometry) (hdrSamples : Nat)
    (init : Nat → Nat) (hdr : FrameHeader) (inputs : Nat → Nat → Nat)
    (s : PluginState) (hn : 1 ≤ hdr.num_active_fems) (i : Nat)
    (hi : i < s.num_images) :
    (∃ pix, (process_frame g hdrSamples true init hdr inputs s).outputs[3 * i]? =
      some (Output.data (s.image_counter + i) pix)) ∧
    (process_frame g hdrSamples true init hdr inputs s).outputs[3 * i + 1]? =
      some (Output.imgNum (s.image_counter + i) i) ∧
    (process_frame g hdrSamples true init hdr inputs s).outputs[3 * i + 2]? =
      some (Output.frameNum (s.image_counter + i) hdr.frame_number) := by
  rw [(process_frame_eq_fem0 g hdrSamples init hdr inputs s hn).2]
  have houts := processImagesFem_some_outputs g hdrSamples
    (hdr.fem_rx_state 0).packet_state (inputs 0) hdr.frame_number
    s.image_width s.image_height s.num_images 0
    (initCursor (hdr.fem_rx_state 0).packet_state) init s.image_counter
  have := houts.2 i hi
  simpa using this

/-- Witness for C10 at a concrete single-FEM frame. -/
theorem C10_triplet_payloads_witness :
    (process_frame testGeometry 0 true (fun _ => 7) missingHeader (fun _ _ => 9)
      testState).outputs[1]? = some (Output.imgNum 0 0) ∧
    (process_frame testGeometry 0 true (fun _ => 7) missingHeader (fun _ _ => 9)
      testState).outputs[2]? = some (Output.frameNum 0 11) := by
  have h := C10_triplet_payloads testGeometry 0 (fun _ => 7) missingHeader
    (fun _ _ => 9) testState (by decide) 0 (by decide)
  exact ⟨by simpa using h.2.1, by simpa using h.2.2⟩

def testStateC2 : PluginState :=
  { image_width := 2, image_height := 1, image_pixels := 2, num_images := 1,
    packets_lost := 0, image_counter := 0 }

/-- C2 is violated by the code: on a concrete frame with two active FEMs
(FEM 0 with all packets present, FEM 1 with all packets missing), the
only stores performed are FEM 0's — all four copied through FEM 0's
`packet_state` at the FEM-independent offsets 0..3 — and the call
faults on FEM 1's first store, because the reordering loop reads
`fem_rx_state->packet_state[0][...]` (FEM-state slot 0) for every FEM,
shadows the per-FEM output offset with a FEM-independent one, and frees
the output buffer at the end of the first FEM iteration.  FEM 1's
contribution never reaches a disjoint output region. -/
theorem C2_multi_fem_reorder_demo :
    (process_frame testGeometry 0 true (fun _ => 7) twoFemHeader (fun _ _ => 9)
      testStateC2).faulted = true ∧
    (process_frame testGeometry 0 true (fun _ => 7) twoFemHeader (fun _ _ => 9)
      testStateC2).writes =
      [{ offset := 2, val := 9 }, { offset := 3, val := 9 },
       { offset := 0, val := 9 }, { offset := 1, val := 9 }] := by
  decide

def testStateC6 : PluginState :=
  { image_width := 2, image_height := 2, image_pixels := 4, num_images := 2,
    packets_lost := 0, image_counter := 0 }

/-- C6 is violated by the code for frames with more than one active FEM:
on a concrete two-FEM frame the call pushes the first FEM iteration's
`num_images` triplets and advances the image counter once per image of
that iteration, but then faults — the reordered-image buffer was freed
and nulled at the end of the first FEM iteration, and the second FEM
iteration's first pixel store dereferences the null buffer, killing the
process instead of completing the frame. -/
theorem C6_multi_fem_crash :
    (process_frame testGeometry 0 true (fun _ => 7) twoFemHeader (fun _ _ => 9)
      testStateC6).faulted = true ∧
    (process_frame testGeometry 0 true (fun _ => 7) twoFemHeader (fun _ _ => 9)
      testStateC6).outputs.length = 3 * testStateC6.num_images ∧
    (process_frame testGeometry 0 true (fun _ => 7) twoFemHeader (fun _ _ => 9)
      testStateC6).state.image_counter =
      testStateC6.image_counter + testStateC6.num_images := by
  decide

end LpdModel
